import Mathlib

/-!
Verification development for the gosort media ingestion service.

The definitions below are a shallow embedding of the Go sources:
  - cmd/api/api.go            (server: upload handler, batch buffer, cleanup)
  - cmd/client/client.go      (client: pipeline, checksums, SendFile)
  - internal/sortengine/*.go  (Media, DB, Engine.GetNewFilename, Checksum)

Byte streams are lists of naturals; the MD5 digest primitive is kept abstract
as a parameter of type List Nat -> String, since every property at issue is a
property of which bytes are fed to the digest, not of MD5 itself.
-/

namespace Gosort

/-- A byte of a stream.  The concrete byte values never matter, only their
positions, so we use Nat. -/
abbrev Byte := Nat

/-! ## Strings: Go helpers used by the sources -/

/-- strings.HasPrefix, via character lists. -/
def goHasPrefix (s pre : String) : Bool :=
  pre.toList.isPrefixOf s.toList

/-- strings.HasSuffix, via character lists. -/
def goHasSuffix (s suf : String) : Bool :=
  suf.toList.isSuffixOf s.toList

/-- The characters after the last occurrence of sep (the whole list when sep
does not occur). -/
def afterLast (sep : Char) (l : List Char) : List Char :=
  ((l.reverse.takeWhile (fun c => c ≠ sep)).reverse)

/-- filepath.Ext: the suffix of the last path element starting at its final
dot, empty when the last element has no dot. -/
def filepathExt (s : String) : String :=
  let base := afterLast '/' s.toList
  if base.contains '.' then String.mk ('.' :: afterLast '.' base) else ""

/-- ASCII lower-casing used to model strings.EqualFold (the repository only
compares ASCII extensions). -/
def asciiLower (s : String) : String :=
  String.mk (s.toList.map Char.toLower)

/-- strings.EqualFold restricted to ASCII. -/
def goEqualFold (a b : String) : Bool :=
  asciiLower a = asciiLower b

/-! ## Wall-clock instants and the Go reference-layout formats -/

/-- A wall-clock instant, the relevant projection of Go time.Time. -/
structure GoTime where
  year : Nat
  month : Nat
  day : Nat
  hour : Nat
  minute : Nat
  second : Nat
deriving DecidableEq, Repr

/-- Go zero time.Time: 0001-01-01 00:00:00. -/
def GoTime.zeroTime : GoTime := ⟨1, 1, 1, 0, 0, 0⟩

/-- Left-pad a numeral with zeros to width w (Go prints time components
zero-padded). -/
def padNat (w n : Nat) : String :=
  let s := toString n
  if w ≤ s.length then s
  else String.mk (List.replicate (w - s.length) '0') ++ s

/-- time.Time.Format with layout 2006-01 (the directory layout in
Engine.GetNewFilename). -/
def GoTime.formatDir (t : GoTime) : String :=
  padNat 4 t.year ++ "-" ++ padNat 2 t.month

/-- time.Time.Format with layout 2006-01-02 15.04.05 (the file-name layout in
Engine.GetNewFilename). -/
def GoTime.formatName (t : GoTime) : String :=
  padNat 4 t.year ++ "-" ++ padNat 2 t.month ++ "-" ++ padNat 2 t.day ++ " " ++
  padNat 2 t.hour ++ "." ++ padNat 2 t.minute ++ "." ++ padNat 2 t.second

/-! ## The Hasher (api.go stream loop, client.go checksum functions,
sortengine Checksum) -/

/-- The bytes fed to the hash100k state by the fused write-and-hash loop of
processUploadRequest (api.go), given the successive reads (chunks) delivered
by the multipart reader.  The accumulator prev is bytesRead before the current
chunk.  Mirrors the three branches of the loop body. -/
def serverPrefixFedAux (prev : Nat) : List (List Byte) → List Byte
  | [] => []
  | chunk :: rest =>
    let nr := chunk.length
    let bytesRead := prev + nr
    if bytesRead ≤ 102400 then
      chunk ++ serverPrefixFedAux bytesRead rest
    else if prev < 102400 then
      (if 0 < 102400 - prev then chunk.take (102400 - prev) else []) ++
        serverPrefixFedAux bytesRead rest
    else
      serverPrefixFedAux bytesRead rest

/-- Bytes fed to hash100k over the whole stream of reads. -/
def serverPrefixFed (chunks : List (List Byte)) : List Byte :=
  serverPrefixFedAux 0 chunks

/-- Bytes fed to fullHash: every read in full. -/
def serverFullFed (chunks : List (List Byte)) : List Byte :=
  chunks.flatten

/-- client.go checksum100k: stat the file, clamp BUFSIZE to the file size,
CopyN exactly BUFSIZE bytes into the digest. -/
def clientChecksum100k (h : List Byte → String) (stream : List Byte) : String :=
  let bufsize := if stream.length < 102400 then stream.length else 102400
  h (stream.take bufsize)

/-- client.go checksum: digest of the whole stream. -/
def clientChecksum (h : List Byte → String) (stream : List Byte) : String :=
  h stream

/-- sortengine Checksum(filename, short...): in short (prefix) mode it runs
io.CopyN(h, f, 102400) and returns CopyN's error verbatim; CopyN reports EOF
whenever fewer than 102400 bytes were available, so streams shorter than
102400 bytes yield an error, not a digest. -/
def sortengineChecksum (h : List Byte → String) (stream : List Byte)
    (short : Bool) : Except String String :=
  if short then
    if stream.length < 102400 then Except.error "EOF"
    else Except.ok (h (stream.take 102400))
  else Except.ok (h stream)

/-- A concrete stand-in digest used by closed witnesses and counterexamples. -/
def dlen (l : List Byte) : String := toString l.length

/-! ## Media (internal/sortengine media file) -/

/-- The sortengine Media struct.  Field names follow the Go struct; the two
time.Time fields are GoTime, Metadata is an association list. -/
structure Media where
  path : String := ""
  filename : String := ""
  checksum : String := ""
  checksum100k : String := ""
  size : Int := 0
  modifiedDate : GoTime := GoTime.zeroTime
  creationDate : GoTime := GoTime.zeroTime
  width : Int := 0
  height : Int := 0
  metadata : List (String × String) := []
deriving DecidableEq, Repr

/-- Media.Ext(): filepath.Ext of the Filename, with the leading dot stripped;
empty when the raw extension has fewer than two characters. -/
def Media.ext (m : Media) : String :=
  let e := filepathExt m.filename
  if e.length < 2 then "" else e.drop 1

/-- Image extensions recognized by sortengine (ImageExtensions). -/
def imageExtensions : List String :=
  ["jpg", "jpeg", "png", "gif", "tif", "tiff", "bmp"]

/-- Video extensions recognized by sortengine (VideoExtensions; the source
lists mkv twice). -/
def videoExtensions : List String :=
  ["mpg", "mp4", "mkv", "avi", "mkv", "m4v", "mpeg", "mpeg4"]

/-- Loop body of MatchesExtensions: for each recognized extension, recompute
filepath.Ext of the filename, reject outright when it is empty, otherwise
compare case-insensitively. -/
def matchesExtensionsLoop (filename : String) : List String → Bool
  | [] => false
  | e :: rest =>
    let ext2 := filepathExt filename
    if ext2.length = 0 then false
    else if goEqualFold (ext2.drop 1) e then true
    else matchesExtensionsLoop filename rest

/-- MatchesExtensions(filename, exts): false when the file does not exist,
otherwise the loop above. -/
def matchesExtensions (fileExists : Bool) (filename : String)
    (exts : List String) : Bool :=
  if !fileExists then false else matchesExtensionsLoop filename exts

/-- Media.IsImage for an existing file. -/
def isImageName (fileExists : Bool) (filename : String) : Bool :=
  matchesExtensions fileExists filename imageExtensions

/-- Media.IsVideo for an existing file. -/
def isVideoName (fileExists : Bool) (filename : String) : Bool :=
  matchesExtensions fileExists filename videoExtensions

/-- Media.IsRecognized. -/
def isRecognizedName (fileExists : Bool) (filename : String) : Bool :=
  isImageName fileExists filename || isVideoName fileExists filename

/-! ## JSON values and Go encoding/json decoding into Media (api.go pushFile) -/

/-- JSON values, as far as the repository's payloads need them. -/
inductive Json where
  | str (s : String)
  | num (n : Int)
  | bool (b : Bool)
  | null
  | arr (xs : List Json)
  | obj (fields : List (String × Json))

/-- Go json.Unmarshal into map[string]string: the value must be an object all
of whose field values are strings (client.go SendFile's response decoding). -/
def decodeStringMap : Json → Option (List (String × String))
  | Json.obj fields =>
    fields.foldr
      (fun kv acc =>
        match kv.2, acc with
        | Json.str s, some m => some ((kv.1, s) :: m)
        | _, _ => none)
      (some [])
  | _ => none

/-- The exported fields of the Go Media struct, for json field matching. -/
inductive MediaField where
  | path | filename | checksum | checksum100k | size
  | modifiedDate | creationDate | width | height | metadata
deriving DecidableEq, Repr

/-- Go json field matching for Media: a JSON object key binds to a struct
field exactly when it equals the Go field name up to ASCII case (the struct
declares no json tags; underscores are not stripped, so a key such as
creation_time matches nothing). -/
def mediaFieldOf (key : String) : Option MediaField :=
  let k := asciiLower key
  if k = "path" then some MediaField.path
  else if k = "filename" then some MediaField.filename
  else if k = "checksum" then some MediaField.checksum
  else if k = "checksum100k" then some MediaField.checksum100k
  else if k = "size" then some MediaField.size
  else if k = "modifieddate" then some MediaField.modifiedDate
  else if k = "creationdate" then some MediaField.creationDate
  else if k = "width" then some MediaField.width
  else if k = "height" then some MediaField.height
  else if k = "metadata" then some MediaField.metadata
  else none

/-- Parse a decimal digit. -/
def digitVal (c : Char) : Option Nat :=
  if '0' ≤ c ∧ c ≤ '9' then some (c.toNat - '0'.toNat) else none

/-- Parse a fixed run of decimal digits. -/
def parseDigits : List Char → Option Nat
  | [] => none
  | l =>
    l.foldl
      (fun acc c =>
        match acc, digitVal c with
        | some n, some d => some (n * 10 + d)
        | _, _ => none)
      (some 0)

/-- time.Time json decoding accepts RFC 3339; the model recognizes the plain
Zulu form YYYY-MM-DDTHH:MM:SSZ (no payload in the repository ever reaches
this parser, because no JSON key matches the two time fields). -/
def parseRFC3339 (s : String) : Option GoTime :=
  match s.toList with
  | [y1, y2, y3, y4, '-', m1, m2, '-', d1, d2, 'T',
     h1, h2, ':', n1, n2, ':', s1, s2, 'Z'] =>
    match parseDigits [y1, y2, y3, y4], parseDigits [m1, m2],
        parseDigits [d1, d2], parseDigits [h1, h2], parseDigits [n1, n2],
        parseDigits [s1, s2] with
    | some y, some mo, some d, some h, some mi, some se =>
      some ⟨y, mo, d, h, mi, se⟩
    | _, _, _, _, _, _ => none
  | _ => none

/-- Assign one matched JSON field into the Media struct, with Go's per-type
decoding rules (null leaves the field untouched; a type mismatch is an
unmarshal error). -/
def setMediaField (m : Media) : MediaField → Json → Except String Media
  | MediaField.path, Json.str s => Except.ok { m with path := s }
  | MediaField.path, Json.null => Except.ok m
  | MediaField.path, _ => Except.error "cannot unmarshal into Path"
  | MediaField.filename, Json.str s => Except.ok { m with filename := s }
  | MediaField.filename, Json.null => Except.ok m
  | MediaField.filename, _ => Except.error "cannot unmarshal into Filename"
  | MediaField.checksum, Json.str s => Except.ok { m with checksum := s }
  | MediaField.checksum, Json.null => Except.ok m
  | MediaField.checksum, _ => Except.error "cannot unmarshal into Checksum"
  | MediaField.checksum100k, Json.str s => Except.ok { m with checksum100k := s }
  | MediaField.checksum100k, Json.null => Except.ok m
  | MediaField.checksum100k, _ => Except.error "cannot unmarshal into Checksum100k"
  | MediaField.size, Json.num n => Except.ok { m with size := n }
  | MediaField.size, Json.null => Except.ok m
  | MediaField.size, _ => Except.error "cannot unmarshal into Size"
  | MediaField.width, Json.num n => Except.ok { m with width := n }
  | MediaField.width, Json.null => Except.ok m
  | MediaField.width, _ => Except.error "cannot unmarshal into Width"
  | MediaField.height, Json.num n => Except.ok { m with height := n }
  | MediaField.height, Json.null => Except.ok m
  | MediaField.height, _ => Except.error "cannot unmarshal into Height"
  | MediaField.modifiedDate, Json.str s =>
    match parseRFC3339 s with
    | some t => Except.ok { m with modifiedDate := t }
    | none => Except.error "parsing time"
  | MediaField.modifiedDate, Json.null => Except.ok m
  | MediaField.modifiedDate, _ => Except.error "cannot unmarshal into ModifiedDate"
  | MediaField.creationDate, Json.str s =>
    match parseRFC3339 s with
    | some t => Except.ok { m with creationDate := t }
    | none => Except.error "parsing time"
  | MediaField.creationDate, Json.null => Except.ok m
  | MediaField.creationDate, _ => Except.error "cannot unmarshal into CreationDate"
  | MediaField.metadata, Json.obj fields =>
    match decodeStringMap (Json.obj fields) with
    | some kvs => Except.ok { m with metadata := kvs }
    | none => Except.error "cannot unmarshal into Metadata"
  | MediaField.metadata, Json.null => Except.ok m
  | MediaField.metadata, _ => Except.error "cannot unmarshal into Metadata"

/-- json.Unmarshal of the media part into a sortengine.Media value
(api.go pushFile line 305): keys that match no Go field are ignored. -/
def mediaFromJson : Json → Except String Media
  | Json.obj fields =>
    fields.foldlM
      (fun m kv =>
        match mediaFieldOf kv.1 with
        | none => Except.ok m
        | some f => setMediaField m f kv.2)
      {}
  | _ => Except.error "cannot unmarshal into Media"

/-! ## The path allocator: Engine.GetNewFilename (engine.go) -/

/-- filepath.Abs of a path that is already absolute is filepath.Clean; every
path the allocator builds is the save dir joined with dot-free components, so
on the allocator's inputs Clean is the identity.  The save dir is taken to be
absolute and clean (the server requires an existing configured directory). -/
def filepathAbs (p : String) : String := p

/-- The candidate path the allocator builds for collision counter num:
save dir / 2006-01 directory / 2006-01-02 15.04.05 name, with .num appended
for positive num and the Media extension last. -/
def gnfCandidate (root : String) (m : Media) (num : Nat) : String :=
  root ++ "/" ++ m.creationDate.formatDir ++ "/" ++
    (if 0 < num then m.creationDate.formatName ++ "." ++ toString num
     else m.creationDate.formatName) ++ "." ++ m.ext

/-- An on-disk file store: association list from path to content bytes. -/
abbrev FileStore := List (String × List Byte)

/-- Look a path up in the store (FileOrDirExists plus reading the content). -/
def fsLookup (fs : FileStore) (p : String) : Option (List Byte) :=
  (fs.find? (fun e => e.1 == p)).map (fun e => e.2)

/-- The loop of Engine.GetNewFilename.  For each num the candidate is built,
the path-traversal guard runs (strings.HasPrefix of the two filepath.Abs
results; a failure is a panic, modelled as none), then FileOrDirExists: an
occupied candidate whose content hashes to the record's checksum is the
"Shouldn't be able to hit this" panic (none); otherwise num is incremented.
The source loop is unbounded; fuel bounds the model, and the theorems show
any fuel beyond the first free candidate yields it. -/
def getNewFilenameAux (h : List Byte → String) (fs : FileStore)
    (root : String) (m : Media) : Nat → Nat → Option String
  | 0, _ => none
  | fuel + 1, num =>
    let filename := gnfCandidate root m num
    if goHasPrefix (filepathAbs filename) (filepathAbs root) = false then none
    else
      match fsLookup fs filename with
      | some content =>
        if h content == m.checksum then none
        else getNewFilenameAux h fs root m fuel (num + 1)
      | none => some filename

/-- Engine.GetNewFilename with enough fuel for any store in which some
candidate below the fuel bound is free. -/
def getNewFilename (h : List Byte → String) (fs : FileStore)
    (root : String) (m : Media) : Option String :=
  getNewFilenameAux h fs root m (fs.length + 1) 0

/-! ## Server state and the upload handler (api.go) -/

/-- Rows of the media table: the checksum column carries the UNIQUE
constraint, so duplicate checksums are never stored twice. -/
def insertOrIgnoreAll (db : List Media) (rs : List Media) : List Media :=
  rs.foldl
    (fun acc r => if acc.any (fun x => x.checksum == r.checksum) then acc
                  else acc ++ [r])
    db

/-- DB.ChecksumExists: count rows with the given checksum. -/
def dbChecksumExists (db : List Media) (c : String) : Bool :=
  db.any (fun r => r.checksum == c)

/-- DB.Checksum100kExists. -/
def dbChecksum100kExists (db : List Media) (c : String) : Bool :=
  db.any (fun r => r.checksum100k == c)

/-- The server's mutable state: files on disk under the save dir, committed
media rows, and the BatchInsertBuffer contents. -/
structure ServerState where
  files : FileStore
  db : List Media
  buffer : List Media
deriving DecidableEq

/-- Primitive effects of processUploadRequest, in program order.  Replaying a
prefix of a request's events gives the state an abrupt crash at that point
leaves behind. -/
inductive Event where
  | createTemp (p : String)
  | writeTemp (p : String) (content : List Byte)
  | removeFile (p : String)
  | bufferAdd (m : Media)
  | bufferFlushOk
  | bufferFlushFail
  | rename (src dst : String)
  | respond (code : Nat) (body : List (String × String))
deriving DecidableEq

/-- Effect of one event on the server state.  bufferFlushOk commits the
buffered rows through AddFilesToDBBatch's INSERT OR IGNORE; both flush
outcomes clear the buffer first (BatchInsertBuffer.flush copies and truncates
the list before calling the database). -/
def applyEvent (st : ServerState) : Event → ServerState
  | Event.createTemp p => { st with files := st.files ++ [(p, [])] }
  | Event.writeTemp p content =>
    { st with files :=
        st.files.map (fun e => if e.1 == p then (e.1, content) else e) }
  | Event.removeFile p =>
    { st with files := st.files.filter (fun e => !(e.1 == p)) }
  | Event.bufferAdd m => { st with buffer := st.buffer ++ [m] }
  | Event.bufferFlushOk =>
    { st with db := insertOrIgnoreAll st.db st.buffer, buffer := [] }
  | Event.bufferFlushFail => { st with buffer := [] }
  | Event.rename src dst =>
    { st with files :=
        (st.files.filter (fun e => !(e.1 == src))) ++
          (st.files.filter (fun e => e.1 == src)).map (fun e => (dst, e.2)) }
  | Event.respond _ _ => st

/-- Replay a list of events. -/
def applyEvents (st : ServerState) (evs : List Event) : ServerState :=
  evs.foldl applyEvent st

/-- The JSON body gin sends for an internal or bad-request failure. -/
def failBody (reason : String) : List (String × String) :=
  [("status", "failed"), ("reason", reason)]

/-- The 409 body. -/
def existsBody : List (String × String) := [("status", "exists")]

/-- The 200 body. -/
def successBody : List (String × String) := [("status", "success")]

/-- Outcomes of the fallible operations a single upload performs, one field
per call site in processUploadRequest.  The two flush fields are the database
error AddFilesToDBBatch returns from the flush triggered inside Add when the
buffer fills, and from the forced Flush. -/
structure UploadOracle where
  openErr : Bool := false
  createErr : Bool := false
  writeErr : Bool := false
  closeErr : Bool := false
  flushInAddErr : Option String := none
  flushForcedErr : Option String := none
  renameErr : Bool := false
deriving DecidableEq

/-- The tail of the handler from the rename on: on rename failure the temp
file is left in place (logged for manual recovery) and the response is 500;
otherwise the temp is renamed to the final path and the response is 200. -/
def renameStep (o : UploadOracle) (tmpFilename newFilename : String)
    (evs : List Event) : List Event :=
  if o.renameErr then evs ++ [Event.respond 500 (failBody "rename error")]
  else evs ++ [Event.rename tmpFilename newFilename,
               Event.respond 200 successBody]

/-- processUploadRequest (api.go lines 369-536) as the list of effects it
performs, none when the path allocator panics.  bs is the batch size of the
global BatchInsertBuffer (100 in main). -/
def processUploadRequest (h : List Byte → String) (bs : Nat) (root : String)
    (st : ServerState) (m : Media) (content : List Byte) (o : UploadOracle) :
    Option (List Event) :=
  match getNewFilename h st.files root m with
  | none => none
  | some newFilename =>
    let tmpFilename := newFilename ++ ".download"
    some
      (if o.openErr then [Event.respond 500 (failBody "open error")]
       else if o.createErr then [Event.respond 500 (failBody "create error")]
       else if o.writeErr then
         [Event.createTemp tmpFilename, Event.removeFile tmpFilename,
          Event.respond 500 (failBody "write error")]
       else if o.closeErr then
         [Event.createTemp tmpFilename, Event.writeTemp tmpFilename content,
          Event.removeFile tmpFilename, Event.respond 500 (failBody "close error")]
       else
         let written := [Event.createTemp tmpFilename,
                         Event.writeTemp tmpFilename content]
         let actualChecksum := h content
         let actualChecksum100k := h (content.take 102400)
         if actualChecksum != m.checksum then
           written ++ [Event.removeFile tmpFilename,
             Event.respond 400 (failBody "checksum mismatch - file may be corrupted")]
         else
           let m2 := { m with checksum100k := actualChecksum100k }
           if dbChecksumExists st.db actualChecksum then
             written ++ [Event.removeFile tmpFilename, Event.respond 409 existsBody]
           else if bs ≤ st.buffer.length + 1 then
             -- Add fills the buffer and flushes inside the lock
             match o.flushInAddErr with
             | some e =>
               written ++ [Event.bufferAdd m2, Event.bufferFlushFail,
                 Event.removeFile tmpFilename, Event.respond 500 (failBody e)]
             | none =>
               -- the forced Flush then sees an empty buffer and is a no-op
               renameStep o tmpFilename newFilename
                 (written ++ [Event.bufferAdd m2, Event.bufferFlushOk])
           else
             match o.flushForcedErr with
             | some e =>
               written ++ [Event.bufferAdd m2, Event.bufferFlushFail,
                 Event.removeFile tmpFilename, Event.respond 500 (failBody e)]
             | none =>
               renameStep o tmpFilename newFilename
                 (written ++ [Event.bufferAdd m2, Event.bufferFlushOk]))

/-- The response the handler emitted (exactly one respond event per run). -/
def finalResponse (evs : List Event) : Option (Nat × List (String × String)) :=
  (evs.filterMap
    (fun e => match e with
      | Event.respond c b => some (c, b)
      | _ => none)).getLast?

/-- pushFile (api.go lines 290-365) composed with the queue worker running
processUploadRequest: the quick ChecksumExists pre-probe answers 409
immediately; otherwise the request is processed and its response returned.
Rate limiting and queueing are not on the sequential path modelled here. -/
def handleUpload (h : List Byte → String) (bs : Nat) (root : String)
    (st : ServerState) (m : Media) (content : List Byte) (o : UploadOracle) :
    (Nat × List (String × String)) × ServerState :=
  if dbChecksumExists st.db m.checksum then ((409, existsBody), st)
  else
    match processUploadRequest h bs root st m content o with
    | none => ((500, failBody "allocator panic"), st)
    | some evs =>
      ((finalResponse evs).getD (500, failBody "no response"),
       applyEvents st evs)

/-- The oracle of a run in which no I/O or database call fails. -/
def happyOracle : UploadOracle := {}

/-- The record the handler hands to the InsertBatcher: the declared record
with its prefix hash overridden by the server-computed one. -/
def m2Of (h : List Byte → String) (m : Media) (content : List Byte) : Media :=
  { m with checksum100k := h (content.take 102400) }

/-- The server state after one successful upload on a fresh server: the final
path holds the content, the index holds the one record, the buffer is
drained. -/
def stateAfterFirst (h : List Byte → String) (root : String) (m : Media)
    (content : List Byte) : ServerState :=
  ⟨[(gnfCandidate root m 0, content)], [m2Of h m content], []⟩

/-- True when, at the moment of every rename event of the trace, the index
already holds a row with the given full hash: the replayed state just before
each rename satisfies DB.ChecksumExists. -/
def insertedBeforeEveryRename (st0 : ServerState) (c : String)
    (evs : List Event) : Bool :=
  (evs.foldl
    (fun acc e =>
      match e with
      | Event.rename _ _ => (applyEvent acc.1 e, acc.2 && dbChecksumExists acc.1.db c)
      | _ => (applyEvent acc.1 e, acc.2))
    (st0, true)).2

/-- Whether the trace publishes (renames) at all. -/
def hasRenameEvent (evs : List Event) : Bool :=
  evs.any (fun e =>
    match e with
    | Event.rename _ _ => true
    | _ => false)

/-- pushFile preceded by decoding the media multipart field (api.go lines
301-310): an unmarshal error is answered 400 before anything else runs. -/
def pushFileJson (h : List Byte → String) (bs : Nat) (root : String)
    (st : ServerState) (mediaJson : Json) (content : List Byte)
    (o : UploadOracle) : (Nat × List (String × String)) × ServerState :=
  match mediaFromJson mediaJson with
  | Except.error e => ((400, failBody e), st)
  | Except.ok m => handleUpload h bs root st m content o

/-- K sequential submissions of the same request against a fresh server
(empty save dir, empty media table, empty buffer), error-free I/O. -/
def runUploads (h : List Byte → String) (bs : Nat) (root : String)
    (m : Media) (content : List Byte) :
    Nat → ServerState × List (Nat × List (String × String))
  | 0 => (⟨[], [], []⟩, [])
  | k + 1 =>
    let prev := runUploads h bs root m content k
    let q := handleUpload h bs root prev.1 m content happyOracle
    (q.2, prev.2 ++ [q.1])

/-! ## Startup recovery: cleanupTempFiles (api.go lines 623-641) -/

/-- The directory tree under the save dir as walked entries:
path plus the IsDir flag of its FileInfo. -/
abbrev WalkEntry := String × Bool

/-- cleanupTempFiles: filepath.Walk visits every entry; every non-directory
whose path ends in .download is removed (a removal error is ignored by the
walk; the model's removals succeed). -/
def cleanupTempFiles (entries : List WalkEntry) : List WalkEntry :=
  entries.filter (fun e => !(!e.2 && goHasSuffix e.1 ".download"))

/-! ## DB.AddFilesToDBBatch (sortengine db file, lines 63-167) -/

/-- Transaction-level outcomes per sub-batch index: Begin, the statement
Prepare, and Commit. -/
structure TxOracle where
  beginErr : Nat → Option String := fun _ => none
  prepareErr : Nat → Option String := fun _ => none
  commitErr : Nat → Option String := fun _ => none

/-- The row loop of one sub-batch: rows whose Exec errors go to the failed
list; INSERT OR IGNORE silently skips rows whose checksum is already visible
(committed rows plus rows inserted earlier in the same transaction,
rowsAffected == 0); the rest are the successful inserts. -/
def runRows (rowErr : Media → Option String) (db : List Media)
    (batch : List Media) : List Media × List String :=
  batch.foldl
    (fun acc media =>
      match rowErr media with
      | some e => (acc.1, acc.2 ++ [e])
      | none =>
        if dbChecksumExists (db ++ acc.1) media.checksum then acc
        else (acc.1 ++ [media], acc.2))
    ([], [])

/-- Split a list into chunks of at most n (the i / i+batchSize loop), with
explicit fuel so the recursion is structural; chunksOf supplies fuel equal to
the list length, which suffices whenever n is positive (and n comes out of
AddFilesToDBBatch's positivity fallback). -/
def chunksOfAux (n : Nat) : Nat → List Media → List (List Media)
  | _, [] => []
  | 0, a :: rest => [a :: rest]
  | fuel + 1, a :: rest => (a :: rest).take n :: chunksOfAux n fuel ((a :: rest).drop n)

/-- Split a list into chunks of at most n. -/
def chunksOf (n : Nat) (l : List Media) : List (List Media) :=
  chunksOfAux n l.length l

/-- The per-sub-batch loop of AddFilesToDBBatch: Begin, Prepare, run the
rows; if every row failed and none succeeded the transaction is rolled back
and the first row error is surfaced; otherwise Commit makes the successful
rows durable and the loop continues with the next sub-batch. -/
def batchLoop (rowErr : Media → Option String) (tx : TxOracle) :
    Nat → List Media → List (List Media) → List Media × Option String
  | _, db, [] => (db, none)
  | i, db, batch :: rest =>
    match tx.beginErr i with
    | some e => (db, some ("error starting transaction: " ++ e))
    | none =>
      match tx.prepareErr i with
      | some e => (db, some ("error preparing batch insert statement: " ++ e))
      | none =>
        let sf := runRows rowErr db batch
        if sf.1.isEmpty && !sf.2.isEmpty then
          (db, some ("all files in batch failed to insert: " ++ sf.2.headD ""))
        else
          match tx.commitErr i with
          | some e => (db, some ("error committing batch transaction: " ++ e))
          | none => batchLoop rowErr tx (i + 1) (db ++ sf.1) rest

/-- DB.AddFilesToDBBatch: empty input is a no-op; a non-positive batchSize
falls back to 100; the list is processed in sub-batches. -/
def addFilesToDBBatch (rowErr : Media → Option String) (tx : TxOracle)
    (db : List Media) (mediaList : List Media) (batchSize : Int) :
    List Media × Option String :=
  if mediaList.isEmpty then (db, none)
  else
    let bs : Nat := if batchSize ≤ 0 then 100 else batchSize.toNat
    batchLoop rowErr tx 0 db (chunksOf bs mediaList)

/-! ## Client phase 1: NewMediaFile and the checksum worker
(client.go lines 884-923, sortengine media file lines 121-131, 189-222) -/

/-- Media.GetDate: walk the priority field list for the file kind; the first
metadata hit is parsed with layout 2006:01:02 15:04:05 (a parse failure
returns the modification date together with the error); with no hit the
modification date is returned without error. -/
def parseExifDate (s : String) : Option GoTime :=
  match s.toList with
  | [y1, y2, y3, y4, ':', m1, m2, ':', d1, d2, ' ',
     h1, h2, ':', n1, n2, ':', s1, s2] =>
    match parseDigits [y1, y2, y3, y4], parseDigits [m1, m2],
        parseDigits [d1, d2], parseDigits [h1, h2], parseDigits [n1, n2],
        parseDigits [s1, s2] with
    | some y, some mo, some d, some h, some mi, some se =>
      some ⟨y, mo, d, h, mi, se⟩
    | _, _, _, _, _, _ => none
  | _ => none

/-- The metadata field priority lists of Media.GetDate. -/
def dateFields (isImg isVid : Bool) : List String :=
  if isImg then ["DateTimeDigitized", "DateTimeOriginal", "DateTime"]
  else if isVid then
    ["CreateDate", "MediaCreateDate", "TrackCreateDate",
     "ModifyDate", "MediaModifyDate", "TrackModifyDate"]
  else []

/-- Media.GetDate's value and whether it returned an error. -/
def getDateModel (isImg isVid : Bool) (meta : List (String × String))
    (modDate : GoTime) : GoTime × Bool :=
  match (dateFields isImg isVid).findSome?
      (fun f => (meta.find? (fun kv => kv.1 == f)).map (fun kv => kv.2)) with
  | some raw =>
    match parseExifDate raw with
    | some t => (t, false)
    | none => (modDate, true)
  | none => (modDate, false)

/-- Media.Init for an existing file, returning the struct as mutated up to
the first error (NewMediaFile discards Init's error, so the partially
initialized struct is what the caller sees).  GetMetadata fails for an
unrecognized extension; Checksum(filename, true) fails for content shorter
than 102400 bytes (CopyN EOF); GetDate can fail on an unparsable tag. -/
def mediaInit (h : List Byte → String) (filename : String)
    (content : List Byte) (modDate : GoTime)
    (exif : List (String × String)) : Media :=
  let m0 : Media := { filename := filename }
  if !isRecognizedName true filename then m0
  else
    let m1 := { m0 with metadata := exif }
    let m2 := { m1 with size := (content.length : Int), modifiedDate := modDate }
    match sortengineChecksum h content true with
    | Except.error _ => m2
    | Except.ok c100 =>
      let m3 := { m2 with checksum100k := c100 }
      let (d, _) := getDateModel (isImageName true filename)
        (isVideoName true filename) exif modDate
      { m3 with creationDate := d }

/-- NewMediaFile: absolute filename (taken as already absolute), Init run
with its error ignored, never nil. -/
def newMediaFile (h : List Byte → String) (filename : String)
    (content : List Byte) (modDate : GoTime)
    (exif : List (String × String)) : Media :=
  mediaInit h filename content modDate exif

/-- A phase-1 result queued for phase 2/3. -/
structure FileWithChecksums where
  path : String
  media : Media
  checksum : String
  checksum100k : String
deriving DecidableEq, Repr

/-- The phase-1 worker body (client.go lines 884-923) for a readable file:
NewMediaFile (which cannot be nil), SetChecksum (the full digest, which
succeeds for any readable file), the stand-alone checksum100k, then the
candidate is counted and emitted.  none would mean the file was skipped;
no branch of the code produces it for a readable file. -/
def phase1Worker (h : List Byte → String) (filename : String)
    (content : List Byte) (modDate : GoTime)
    (exif : List (String × String)) : Option FileWithChecksums :=
  let media := newMediaFile h filename content modDate exif
  let media2 := { media with checksum := h content }
  let c100 := clientChecksum100k h content
  some ⟨filename, media2, media2.checksum, c100⟩

/-! ## Client SendFile and processFile (client.go lines 321-443, 652-664) -/

/-- Outcomes of the calls SendFile makes, one field per call site.
producerPending is the state of the one-shot error channel at the
non-blocking check after the request: none when the multipart-producing task
has not signalled yet, some r when the channel holds r. -/
structure SendOracle where
  openErr : Bool := false
  checksumsExist : Bool := false
  transportErr : Bool := false
  producerPending : Option (Option String) := none
  readErr : Bool := false
  body : Option Json := none

/-- How SendFile ended. -/
inductive SendOutcome where
  | skippedExisting
  | uploaded
deriving DecidableEq, Repr

/-- Client.SendFile: open the file; skip when both checksums exist on the
server; stream the multipart body; a transport error fails the call; then the
non-blocking producer-error check; then the response body is read and decoded
as a JSON object of strings — the HTTP status code is never examined. -/
def sendFile (o : SendOracle) : Except String SendOutcome :=
  if o.openErr then Except.error "open error"
  else if o.checksumsExist then Except.ok SendOutcome.skippedExisting
  else if o.transportErr then Except.error "error sending request"
  else
    match o.producerPending with
    | some (some e) => Except.error e
    | _ =>
      if o.readErr then Except.error "error reading response"
      else
        match o.body with
        | none => Except.error "error decoding response"
        | some j =>
          match decodeStringMap j with
          | none => Except.error "error decoding response"
          | some _ => Except.ok SendOutcome.uploaded

/-- The pipeline's per-file counters. -/
structure ProcessStats where
  totalFiles : Nat := 0
  processed : Nat := 0
  uploaded : Nat := 0
  skipped : Nat := 0
  errors : Nat := 0
deriving DecidableEq, Repr

/-- Client.processFile: Processed always advances; a SendFile error advances
Errors, success advances Uploaded (the Skipped counter belongs to the phase-3
pre-filter, not to processFile). -/
def processFile (o : SendOracle) (stats : ProcessStats) : ProcessStats :=
  match sendFile o with
  | Except.error _ =>
    { stats with processed := stats.processed + 1, errors := stats.errors + 1 }
  | Except.ok _ =>
    { stats with processed := stats.processed + 1, uploaded := stats.uploaded + 1 }

/-! ## The spec-side realpath (no realpath call exists in the source) -/

/-- Modelled from the spec: realpath(P) resolves symbolic links.  The missing
piece is any symlink resolution in the source (Engine.GetNewFilename uses
filepath.Abs, which is purely lexical); the model resolves one directory
symlink binding, enough to express the spec's property. -/
def specRealpath (links : List (String × String)) (p : String) : String :=
  match links.find?
      (fun l => p == l.1 || goHasPrefix p (l.1 ++ "/")) with
  | some l => l.2 ++ (p.drop l.1.length)
  | none => p

/-! ## Concrete fixtures for closed counterexamples and witnesses -/

/-- A digest stand-in that maps the empty stream to the documented empty-file
MD5 and everything else to the MD5 of the one-byte file a. -/
def hdemo : List Byte → String := fun l =>
  if l.isEmpty then "d41d8cd98f00b204e9800998ecf8427e"
  else "0cc175b9c0f1b6a831c399e269772661"

/-- A well-formed declared record for the empty upload of the seed scenario:
creation time 2020-01-02 03:04:05, extension jpg (which Media.Ext derives
from the filename). -/
def mdemo : Media :=
  { filename := "a.jpg",
    checksum := "d41d8cd98f00b204e9800998ecf8427e",
    checksum100k := "d41d8cd98f00b204e9800998ecf8427e",
    creationDate := ⟨2020, 1, 2, 3, 4, 5⟩ }

/-- A fresh server state. -/
def freshState : ServerState := ⟨[], [], []⟩

/-- The media part of the seed scenario written with the documented JSON keys
of spec section 6: filename, checksum, checksum100k, size, creation_time,
ext. -/
def docMediaJson : Json := Json.obj
  [("filename", Json.str "a.jpg"),
   ("checksum", Json.str "d41d8cd98f00b204e9800998ecf8427e"),
   ("checksum100k", Json.str "d41d8cd98f00b204e9800998ecf8427e"),
   ("size", Json.num 0),
   ("creation_time", Json.str "2020-01-02 03:04:05"),
   ("ext", Json.str "jpg")]

/-- The state an abrupt crash leaves behind when the worker dies right after
the forced flush commits and before the rename runs: the first four events of
the happy run of the seed upload (createTemp, writeTemp, bufferAdd,
bufferFlushOk). -/
def crashAfterFlushState : ServerState :=
  applyEvents freshState
    (((processUploadRequest hdemo 100 "/r" freshState mdemo []
        happyOracle).getD []).take 4)

/-! # Theorems -/

/-! ## Helper lemmas -/

theorem serverPrefixFedAux_eq (chunks : List (List Byte)) :
    ∀ prev, serverPrefixFedAux prev chunks = chunks.flatten.take (102400 - prev) := by
  induction chunks with
  | nil => intro prev; simp [serverPrefixFedAux]
  | cons chunk rest ih =>
    intro prev
    simp only [serverPrefixFedAux, List.flatten_cons]
    rw [List.take_append_eq_append_take]
    by_cases h1 : prev + chunk.length ≤ 102400
    · have hlen : chunk.length ≤ 102400 - prev := by omega
      have h2 : (102400 - prev) - chunk.length = 102400 - (prev + chunk.length) := by
        omega
      simp only [h1, if_true, ih, List.take_of_length_le hlen, h2]
    · by_cases h3 : prev < 102400
      · have h0 : 0 < 102400 - prev := by omega
        have h2 : (102400 - prev) - chunk.length = 0 := by omega
        have h4 : 102400 - (prev + chunk.length) = 0 := by omega
        simp only [h1, if_false, h3, if_true, h0, ih, h2, h4, List.take_zero]
      · have h2 : 102400 - prev = 0 := by omega
        have h4 : 102400 - (prev + chunk.length) = 0 := by omega
        simp only [h1, if_false, h3, ih, h2, h4, List.take_zero, List.nil_append,
          Nat.zero_sub]

theorem serverPrefixFed_take (chunks : List (List Byte)) :
    serverPrefixFed chunks = chunks.flatten.take 102400 := by
  simpa using serverPrefixFedAux_eq chunks 0

theorem goHasPrefix_self_append (s t : String) :
    goHasPrefix (s ++ t) s = true := by
  have hl : (s ++ t).toList = s.toList ++ t.toList := by
    simp [String.toList, String.data_append]
  simp [goHasPrefix, hl, List.isPrefixOf_iff_prefix]

theorem gnfCandidate_hasRootAsHead (root : String) (m : Media) (num : Nat) :
    goHasPrefix (filepathAbs (gnfCandidate root m num)) (filepathAbs root) = true := by
  simp only [gnfCandidate, filepathAbs, String.append_assoc]
  exact goHasPrefix_self_append root _

theorem insertOrIgnoreAll_append (db rs ts : List Media) :
    insertOrIgnoreAll db (rs ++ ts) = insertOrIgnoreAll (insertOrIgnoreAll db rs) ts := by
  unfold insertOrIgnoreAll
  rw [List.foldl_append]

theorem dbChecksumExists_insertOrIgnoreAll_single (db : List Media) (r : Media) :
    dbChecksumExists (insertOrIgnoreAll db [r]) r.checksum = true := by
  unfold insertOrIgnoreAll dbChecksumExists
  simp only [List.foldl_cons, List.foldl_nil]
  by_cases hmem : (db.any fun x => x.checksum == r.checksum) = true
  · rw [if_pos hmem]
    exact hmem
  · rw [if_neg hmem]
    simp [List.any_append]

theorem dbChecksumExists_insertOrIgnoreAll_last (db rs : List Media) (r : Media) :
    dbChecksumExists (insertOrIgnoreAll db (rs ++ [r])) r.checksum = true := by
  rw [insertOrIgnoreAll_append]
  exact dbChecksumExists_insertOrIgnoreAll_single _ r

theorem chunksOfAux_nil (n : Nat) (fuel : Nat) : chunksOfAux n fuel [] = [] := by
  cases fuel <;> rfl

theorem chunksOf_of_le (n : Nat) (l : List Media)
    (hlen : l.length ≤ n) (hne : l ≠ []) : chunksOf n l = [l] := by
  cases l with
  | nil => simp at hne
  | cons a rest =>
    show chunksOfAux n (rest.length + 1) (a :: rest) = [a :: rest]
    rw [chunksOfAux]
    rw [List.take_of_length_le hlen, List.drop_eq_nil_of_le hlen, chunksOfAux_nil]

/-! ## Claim C5 -/

/-- Claim C5, counterexample.  The claim extends the prefix-equals-full
property to the client's stand-alone prefix-hash code including
sortengine.Checksum (its cited source); but Checksum(f, short=true) runs
io.CopyN for exactly 102400 bytes, so on the empty stream (length at most
102400) it returns the EOF error instead of a digest equal to the full
digest. -/
theorem claim5_counterexample :
    sortengineChecksum dlen [] true = Except.error "EOF"
    ∧ sortengineChecksum dlen [] false = Except.ok (dlen [])
    ∧ ¬ sortengineChecksum dlen [] true = Except.ok (dlen []) := by
  refine ⟨rfl, rfl, ?_⟩
  intro hcontra
  have herr : sortengineChecksum dlen [] true = Except.error "EOF" := rfl
  rw [herr] at hcontra
  exact Except.noConfusion hcontra

/-- Claim C5 as amended: for any digest function, (1) the server's fused
write-and-hash loop feeds its hash100k state exactly the first 102400 bytes
of the stream however the reads are chunked, hence the (full, prefix) pair is
a function of the stream's bytes alone; (2) for streams of at most 102400
bytes the fused prefix digest equals the full digest; (3) the client's
stand-alone checksum100k clamps to the file size and so also equals the full
digest on such streams; (4) sortengine.Checksum's short mode only produces a
digest for streams of at least 102400 bytes (it returns an EOF error below
that), and then digests exactly the first 102400 bytes. -/
theorem claim5_amended (h : List Byte → String) (chunks : List (List Byte))
    (stream : List Byte) :
    serverPrefixFed chunks = (serverFullFed chunks).take 102400
    ∧ ((serverFullFed chunks).length ≤ 102400 →
        h (serverPrefixFed chunks) = h (serverFullFed chunks))
    ∧ (stream.length ≤ 102400 → clientChecksum100k h stream = clientChecksum h stream)
    ∧ (102400 ≤ stream.length →
        sortengineChecksum h stream true = Except.ok (h (stream.take 102400))) := by
  refine ⟨serverPrefixFed_take chunks, ?_, ?_, ?_⟩
  · intro hlen
    have hl : chunks.flatten.length ≤ 102400 := by
      simpa [serverFullFed] using hlen
    rw [serverPrefixFed_take, serverFullFed, List.take_of_length_le hl]
  · intro hlen
    by_cases hshort : stream.length < 102400
    · simp [clientChecksum100k, clientChecksum, hshort, List.take_length]
    · have heq : stream.length = 102400 := by omega
      simp [clientChecksum100k, clientChecksum, hshort,
        List.take_of_length_le (le_of_eq heq)]
  · intro hlen
    have hge : ¬ stream.length < 102400 := by omega
    simp [sortengineChecksum, hge]

/-- Witness for claim5_amended at a concrete short stream. -/
theorem claim5_amended_witness :
    clientChecksum100k dlen [7, 7, 7] = clientChecksum dlen [7, 7, 7] :=
  (claim5_amended dlen [] [7, 7, 7]).2.2.1 (by decide)

/-! ## Claim C3 -/

/-- Claim C3, counterexample.  A reachable crash state (the worker killed
right after the forced flush committed the record and before the rename)
leaves a .download temp file on disk whose MediaRecord is already in the
index, contradicting the claim that orphaned temps are guaranteed to have no
inserted record. -/
theorem claim3_counterexample :
    crashAfterFlushState.files.any (fun f => goHasSuffix f.1 ".download") = true
    ∧ dbChecksumExists crashAfterFlushState.db mdemo.checksum = true := by
  constructor
  · decide
  · decide

/-- Claim C3 as amended: the startup recovery scan unlinks exactly the
non-directory entries whose path ends in .download — every such temp is
removed and every other entry survives — but a surviving .download temp is
not guaranteed to be unindexed (see the counterexample), so the scan can
delete a temp whose record was already inserted. -/
theorem claim3_amended (entries : List WalkEntry) :
    (∀ p, (p, false) ∈ cleanupTempFiles entries → goHasSuffix p ".download" = false)
    ∧ (∀ e, e ∈ cleanupTempFiles entries → e ∈ entries)
    ∧ (∀ e, e ∈ entries →
        (e.2 = true ∨ goHasSuffix e.1 ".download" = false) →
        e ∈ cleanupTempFiles entries) := by
  refine ⟨?_, ?_, ?_⟩
  · intro p hp
    have := List.of_mem_filter hp
    simpa using this
  · intro e he
    exact List.mem_of_mem_filter he
  · intro e he hcond
    apply List.mem_filter.mpr
    refine ⟨he, ?_⟩
    rcases hcond with h1 | h1 <;> simp [h1]

/-- Witness for claim3_amended on a concrete tree. -/
theorem claim3_amended_witness :
    ("/r/2020-01/a.jpg", false) ∈
      cleanupTempFiles
        [("/r/2020-01/a.jpg", false), ("/r/2020-01/b.jpg.download", false),
         ("/r/2020-01", true)] :=
  (claim3_amended
      [("/r/2020-01/a.jpg", false), ("/r/2020-01/b.jpg.download", false),
       ("/r/2020-01", true)]).2.2
    ("/r/2020-01/a.jpg", false) (by decide) (Or.inr (by decide))

/-! ## Claim C4 -/

/-- Claim C4, counterexample.  With the documented JSON keys the request does
return 200, but the file is stored at save-dir/0001-01/0001-01-01
00.00.00.jpg, not at save-dir/2020-01/2020-01-02 03.04.05.jpg: the keys
creation_time and ext match no field of the Go Media struct (the fields are
named CreationDate and Ext is a method over Filename), so the declared
creation time is silently dropped and the zero time.Time names the path. -/
theorem claim4_counterexample :
    (pushFileJson hdemo 100 "/save" freshState docMediaJson [] happyOracle).1.1 = 200
    ∧ (pushFileJson hdemo 100 "/save" freshState docMediaJson []
        happyOracle).2.files.map Prod.fst =
        ["/save/0001-01/0001-01-01 00.00.00.jpg"]
    ∧ ((pushFileJson hdemo 100 "/save" freshState docMediaJson []
        happyOracle).2.files.map Prod.fst).all
        (fun p => !(p == "/save/2020-01/2020-01-02 03.04.05.jpg")) = true := by
  refine ⟨?_, ?_, ?_⟩ <;> decide

/-- Claim C4 as amended: the documented-key upload is accepted with 200 and
creates exactly one record, but the decoder binds only filename, checksum,
checksum100k and size (Go json matching is case-insensitive on the Go field
names; creation_time and ext bind nothing), the extension is derived from the
declared filename, and the storage path is derived from the zero creation
time: save-dir/0001-01/0001-01-01 00.00.00.jpg. -/
theorem claim4_amended :
    mediaFromJson docMediaJson =
      Except.ok { filename := "a.jpg",
                  checksum := "d41d8cd98f00b204e9800998ecf8427e",
                  checksum100k := "d41d8cd98f00b204e9800998ecf8427e",
                  size := 0 }
    ∧ (pushFileJson hdemo 100 "/save" freshState docMediaJson [] happyOracle).1 =
        (200, successBody)
    ∧ (pushFileJson hdemo 100 "/save" freshState docMediaJson []
        happyOracle).2.files =
        [("/save/0001-01/0001-01-01 00.00.00.jpg", [])]
    ∧ (pushFileJson hdemo 100 "/save" freshState docMediaJson []
        happyOracle).2.db.length = 1 := by
  exact ⟨rfl, by decide, by decide, by decide⟩

/-! ## Claim C6 -/

/-- Claim C6 (code bug in the source): the phase-1 worker never skips a file
by extension.  NewMediaFile can never be nil (the nil check in the worker is
dead), Init's recognition error is discarded, and the worker then computes
both checksums and emits the candidate, so a file with an unrecognized
extension such as notes.txt is assembled, counted and forwarded to the
probe/upload phases, contradicting the documented skip. -/
theorem claim6_unrecognized_not_skipped :
    (∀ (h : List Byte → String) (name : String) (content : List Byte)
        (d : GoTime) (exif : List (String × String)),
        (phase1Worker h name content d exif).isSome = true)
    ∧ isRecognizedName true "/photos/notes.txt" = false
    ∧ phase1Worker dlen "/photos/notes.txt" [1, 2, 3] GoTime.zeroTime [] =
        some ⟨"/photos/notes.txt",
              { filename := "/photos/notes.txt", checksum := dlen [1, 2, 3] },
              dlen [1, 2, 3], clientChecksum100k dlen [1, 2, 3]⟩ := by
  refine ⟨?_, by decide, by decide⟩
  intro h name content d exif
  simp [phase1Worker]

/-! ## Claim C9 -/

/-- Claim C9, counterexample.  A batch whose single row fails with a per-row
insert error is rolled back and the per-row error is surfaced by the call,
although no begin or commit error occurred: AddFilesToDBBatch returns the
"all files in batch failed to insert" error whenever a sub-batch has at least
one row error and no newly inserted row. -/
theorem claim9_counterexample :
    addFilesToDBBatch (fun _ => some "disk I/O error") {} [] [mdemo] 100 =
      ([], some "all files in batch failed to insert: disk I/O error") := by
  decide

/-- Claim C9 as amended, for the single-transaction case every caller uses
(the flushed buffer never exceeds the batch size): with begin, prepare and
commit succeeding, a sub-batch that newly inserts at least one row — or has
no failing row at all — commits exactly its newly inserted rows and returns
no error, regardless of how many other rows failed or were skipped as
duplicates; a sub-batch with at least one failing row and no newly inserted
row is rolled back and surfaces that row's error. -/
theorem claim9_amended (rowErr : Media → Option String) (tx : TxOracle)
    (db mediaList : List Media) (batchSize : Int)
    (hbs : 0 < batchSize) (hlen : mediaList.length ≤ batchSize.toNat)
    (hb : tx.beginErr 0 = none) (hp : tx.prepareErr 0 = none)
    (hc : tx.commitErr 0 = none) :
    (((runRows rowErr db mediaList).2 = [] ∨ (runRows rowErr db mediaList).1 ≠ []) →
      addFilesToDBBatch rowErr tx db mediaList batchSize =
        (db ++ (runRows rowErr db mediaList).1, none))
    ∧ (((runRows rowErr db mediaList).1 = [] ∧ (runRows rowErr db mediaList).2 ≠ []) →
      addFilesToDBBatch rowErr tx db mediaList batchSize =
        (db, some ("all files in batch failed to insert: " ++
          ((runRows rowErr db mediaList).2).headD ""))) := by
  have hpos : ¬ batchSize ≤ 0 := by omega
  by_cases hemp : mediaList = []
  · subst hemp
    constructor
    · intro _
      simp [addFilesToDBBatch, runRows]
    · intro hcontra
      simp [runRows] at hcontra
  · have hempty : mediaList.isEmpty = false := by
      simpa [List.isEmpty_iff] using hemp
    have hchunks : chunksOf batchSize.toNat mediaList = [mediaList] :=
      chunksOf_of_le batchSize.toNat mediaList hlen hemp
    constructor
    · intro hok
      have hcase : ((runRows rowErr db mediaList).1.isEmpty &&
          !(runRows rowErr db mediaList).2.isEmpty) = false := by
        rcases hok with hok | hok
        · simp [hok]
        · have : (runRows rowErr db mediaList).1.isEmpty = false := by
            simpa [List.isEmpty_iff] using hok
          simp [this]
      simp [addFilesToDBBatch, hempty, if_neg hpos, hchunks, batchLoop, hb, hp,
        hcase, hc]
    · intro hfail
      have h1 : (runRows rowErr db mediaList).1.isEmpty = true := by
        simp [List.isEmpty_iff, hfail.1]
      have h2 : (runRows rowErr db mediaList).2.isEmpty = false := by
        simpa [List.isEmpty_iff] using hfail.2
      simp [addFilesToDBBatch, hempty, if_neg hpos, hchunks, batchLoop, hb, hp,
        h1, h2]

/-- Witness for claim9_amended: a two-row batch whose first row fails commits
the second row and returns no error. -/
theorem claim9_amended_witness :
    addFilesToDBBatch
      (fun r => if r.checksum == "bad" then some "boom" else none) {}
      [] [{ mdemo with checksum := "bad" }, mdemo] 100 =
      ([mdemo], none) := by
  have h :=
    (claim9_amended
      (fun r => if r.checksum == "bad" then some "boom" else none) {}
      [] [{ mdemo with checksum := "bad" }, mdemo] 100
      (by decide) (by decide) rfl rfl rfl).1 (by decide)
  rw [h]
  decide

/-! ## Claim C8 -/

/-- Claim C8, counterexample.  The allocator's guard is a string prefix test
on filepath.Abs results, which resolves no symlinks: with the save dir's
month directory 2020-01 a symlink to /e, the allocator returns the candidate
(the lexical check passes), yet realpath of the returned path does not have
realpath of the save root as a prefix — no path-traversal failure occurs. -/
theorem claim8_counterexample :
    getNewFilename hdemo [] "/r" mdemo =
      some "/r/2020-01/2020-01-02 03.04.05.jpg"
    ∧ goHasPrefix (filepathAbs "/r/2020-01/2020-01-02 03.04.05.jpg")
        (filepathAbs "/r") = true
    ∧ specRealpath [("/r/2020-01", "/e")] "/r/2020-01/2020-01-02 03.04.05.jpg" =
        "/e/2020-01-02 03.04.05.jpg"
    ∧ goHasPrefix
        (specRealpath [("/r/2020-01", "/e")] "/r/2020-01/2020-01-02 03.04.05.jpg")
        (specRealpath [("/r/2020-01", "/e")] "/r") = false := by
  refine ⟨?_, ?_, ?_, ?_⟩ <;> decide

/-- Claim C8 as amended: every path the allocator returns passes the check the
code actually performs — filepath.Abs of the candidate has filepath.Abs of
the save root as a string prefix (purely lexical, no symlink resolution) —
and the allocator never fails it because candidates are built by joining
under the root. -/
theorem claim8_amended (h : List Byte → String) (fs : FileStore)
    (root : String) (m : Media) (fuel num : Nat) (p : String)
    (hres : getNewFilenameAux h fs root m fuel num = some p) :
    goHasPrefix (filepathAbs p) (filepathAbs root) = true := by
  induction fuel generalizing num with
  | zero => simp [getNewFilenameAux] at hres
  | succ fuel ih =>
    rw [getNewFilenameAux] at hres
    rw [gnfCandidate_hasRootAsHead root m num] at hres
    simp only [Bool.true_eq_false, if_false] at hres
    rcases hfs : fsLookup fs (gnfCandidate root m num) with _ | content
    · rw [hfs] at hres
      have := Option.some.inj hres
      subst this
      exact gnfCandidate_hasRootAsHead root m num
    · rw [hfs] at hres
      by_cases hcs : (h content == m.checksum) = true
      · simp [hcs] at hres
      · simp only [hcs, Bool.false_eq_true, if_false] at hres
        exact ih (num + 1) hres

/-- Witness for claim8_amended at the seed upload's allocation. -/
theorem claim8_amended_witness :
    goHasPrefix (filepathAbs "/r/2020-01/2020-01-02 03.04.05.jpg")
      (filepathAbs "/r") = true :=
  claim8_amended hdemo [] "/r" mdemo 1 0
    "/r/2020-01/2020-01-02 03.04.05.jpg" (by decide)

/-! ## Claim C7 -/

theorem getNewFilenameAux_minimal (h : List Byte → String) (fs : FileStore)
    (root : String) (m : Media) :
    ∀ (N fuel num : Nat), N < fuel →
    fsLookup fs (gnfCandidate root m (num + N)) = none →
    (∀ k, k < N → fsLookup fs (gnfCandidate root m (num + k)) ≠ none) →
    (∀ k c, k < N → fsLookup fs (gnfCandidate root m (num + k)) = some c →
      ¬ h c = m.checksum) →
    getNewFilenameAux h fs root m fuel num =
      some (gnfCandidate root m (num + N)) := by
  intro N
  induction N with
  | zero =>
    intro fuel num hfuel hfree _ _
    rcases fuel with _ | fuel
    · omega
    · rw [getNewFilenameAux, gnfCandidate_hasRootAsHead root m num]
      simp only [Bool.true_eq_false, if_false]
      have hnum : num + 0 = num := by omega
      rw [hnum] at hfree
      rw [hfree, hnum]
  | succ N ih =>
    intro fuel num hfuel hfree hocc hpre
    rcases fuel with _ | fuel
    · omega
    · rw [getNewFilenameAux, gnfCandidate_hasRootAsHead root m num]
      simp only [Bool.true_eq_false, if_false]
      have h0 : fsLookup fs (gnfCandidate root m (num + 0)) ≠ none := by
        exact hocc 0 (by omega)
      rcases hcur : fsLookup fs (gnfCandidate root m num) with _ | content
      · exact absurd (by simpa using hcur) h0
      · have hne : ¬ h content = m.checksum := by
          apply hpre 0 content (by omega)
          simpa using hcur
        have hbeq : (h content == m.checksum) = false := by
          simpa using hne
        simp only [hbeq, Bool.false_eq_true, if_false]
        have hshift : num + 1 + N = num + (N + 1) := by omega
        rw [← hshift] at hfree
        have hres := ih fuel (num + 1) (by omega) hfree
          (fun k hk => by
            have := hocc (k + 1) (by omega)
            simpa [Nat.add_assoc, Nat.add_comm 1 k] using this)
          (fun k c hk hc => by
            apply hpre (k + 1) c (by omega)
            simpa [Nat.add_assoc, Nat.add_comm 1 k] using hc)
        rw [hres, hshift]

/-- Claim C7: for a record whose creation time and extension name the
candidate family gnfCandidate root m 0, 1, 2, ..., and under the
precondition that no occupied colliding candidate holds content hashing to
the record's checksum, GetNewFilename returns exactly the candidate with the
smallest N whose path is absent from the store (the .N suffix omitted at
N = 0), and that path does not exist on disk.  The source loop is unbounded;
the model's fuel is quantified over every bound large enough to reach N. -/
theorem claim7_getNewFilename_minimal (h : List Byte → String)
    (fs : FileStore) (root : String) (m : Media) (N fuel : Nat)
    (hfuel : N < fuel)
    (hfree : fsLookup fs (gnfCandidate root m N) = none)
    (hocc : ∀ k, k < N → fsLookup fs (gnfCandidate root m k) ≠ none)
    (hpre : ∀ k c, k < N → fsLookup fs (gnfCandidate root m k) = some c →
      ¬ h c = m.checksum) :
    getNewFilenameAux h fs root m fuel 0 = some (gnfCandidate root m N)
    ∧ fsLookup fs (gnfCandidate root m N) = none := by
  constructor
  · have := getNewFilenameAux_minimal h fs root m N fuel 0 hfuel
      (by simpa using hfree)
      (fun k hk => by simpa using hocc k hk)
      (fun k c hk hc => hpre k c hk (by simpa using hc))
    simpa using this
  · exact hfree

/-- Witness for claim7: a store occupying the suffix-free candidate with
different content sends the seed record to the .1 suffix. -/
theorem claim7_witness :
    getNewFilenameAux hdemo
      [("/r/2020-01/2020-01-02 03.04.05.jpg", [9])] "/r" mdemo 2 0 =
      some "/r/2020-01/2020-01-02 03.04.05.1.jpg"
    ∧ fsLookup [("/r/2020-01/2020-01-02 03.04.05.jpg", [9])]
        "/r/2020-01/2020-01-02 03.04.05.1.jpg" = none := by
  have h :=
    claim7_getNewFilename_minimal hdemo
      [("/r/2020-01/2020-01-02 03.04.05.jpg", [9])] "/r" mdemo 1 2
      (by omega) (by decide)
      (fun k hk => by
        have hk0 : k = 0 := by omega
        subst hk0
        decide)
      (fun k c hk hc => by
        have hk0 : k = 0 := by omega
        subst hk0
        have hval : fsLookup [("/r/2020-01/2020-01-02 03.04.05.jpg", [9])]
            (gnfCandidate "/r" mdemo 0) = some [9] := by decide
        rw [hval] at hc
        have hc9 : c = [9] := (Option.some.inj hc).symm
        subst hc9
        decide)
  exact ⟨by
    have h1 := h.1
    rw [h1]
    decide, by decide⟩

/-! ## Claim C10 -/

/-- Claim C10: whenever a POST /file exchange completes and its response body
decodes as a JSON object of strings — which the documented 409, 429, 503 and
500 bodies all do — SendFile returns nil regardless of the HTTP status code,
so processFile counts the file as Uploaded, not Skipped or Errors; and a
SendFile error can only come from the transport, the multipart-producing
task, reading the response, or a body that is not a JSON object of strings. -/
theorem claim10_sendFile_ignores_status (o : SendOracle) (stats : ProcessStats) :
    (o.openErr = false → o.checksumsExist = false → o.transportErr = false →
      (o.producerPending = none ∨ o.producerPending = some none) →
      o.readErr = false →
      ∀ j kvs, o.body = some j → decodeStringMap j = some kvs →
      sendFile o = Except.ok SendOutcome.uploaded ∧
      processFile o stats =
        { stats with processed := stats.processed + 1,
                     uploaded := stats.uploaded + 1 })
    ∧ (∀ e, sendFile o = Except.error e →
        o.openErr = true ∨ o.transportErr = true ∨
        (∃ e2, o.producerPending = some (some e2)) ∨ o.readErr = true ∨
        o.body = none ∨ (∃ j, o.body = some j ∧ decodeStringMap j = none))
    ∧ decodeStringMap (Json.obj [("status", Json.str "exists")]) =
        some [("status", "exists")]
    ∧ decodeStringMap (Json.obj [("status", Json.str "rate_limited"),
        ("reason", Json.str "Too many requests, please try again later")]) ≠ none
    ∧ decodeStringMap (Json.obj [("status", Json.str "queue_full"),
        ("reason", Json.str "Server is busy, please try again later")]) ≠ none
    ∧ decodeStringMap (Json.obj [("status", Json.str "failed"),
        ("reason", Json.str "checksum mismatch - file may be corrupted")]) ≠ none := by
  refine ⟨?_, ?_, by decide, by decide, by decide, by decide⟩
  · intro hopen hskip htrans hprod hread j kvs hbody hdec
    have hsend : sendFile o = Except.ok SendOutcome.uploaded := by
      rcases hprod with hprod | hprod <;>
        simp [sendFile, hopen, hskip, htrans, hprod, hread, hbody, hdec]
    exact ⟨hsend, by simp [processFile, hsend]⟩
  · intro e herr
    by_cases hopen : o.openErr = true
    · exact Or.inl hopen
    · have hopen' : o.openErr = false := by simpa using hopen
      by_cases hskip : o.checksumsExist = true
      · simp [sendFile, hopen', hskip] at herr
      · have hskip' : o.checksumsExist = false := by simpa using hskip
        by_cases htrans : o.transportErr = true
        · exact Or.inr (Or.inl htrans)
        · have htrans' : o.transportErr = false := by simpa using htrans
          rcases hprod : o.producerPending with _ | e2
          · by_cases hread : o.readErr = true
            · exact Or.inr (Or.inr (Or.inr (Or.inl hread)))
            · have hread' : o.readErr = false := by simpa using hread
              rcases hbody : o.body with _ | j
              · exact Or.inr (Or.inr (Or.inr (Or.inr (Or.inl rfl))))
              · rcases hdec : decodeStringMap j with _ | kvs
                · exact Or.inr (Or.inr (Or.inr (Or.inr (Or.inr ⟨j, rfl, hdec⟩))))
                · simp [sendFile, hopen', hskip', htrans', hprod, hread', hbody,
                    hdec] at herr
          · rcases e2 with _ | e2
            · by_cases hread : o.readErr = true
              · exact Or.inr (Or.inr (Or.inr (Or.inl hread)))
              · have hread' : o.readErr = false := by simpa using hread
                rcases hbody : o.body with _ | j
                · exact Or.inr (Or.inr (Or.inr (Or.inr (Or.inl rfl))))
                · rcases hdec : decodeStringMap j with _ | kvs
                  · exact Or.inr (Or.inr (Or.inr (Or.inr (Or.inr ⟨j, rfl, hdec⟩))))
                  · simp [sendFile, hopen', hskip', htrans', hprod, hread', hbody,
                      hdec] at herr
            · exact Or.inr (Or.inr (Or.inl ⟨e2, rfl⟩))

/-- Witness for claim10 on a concrete 409 exchange: the duplicate body makes
SendFile succeed and processFile advance the Uploaded counter. -/
theorem claim10_witness :
    sendFile { body := some (Json.obj [("status", Json.str "exists")]) } =
      Except.ok SendOutcome.uploaded ∧
    processFile { body := some (Json.obj [("status", Json.str "exists")]) }
      {} = { processed := 1, uploaded := 1 : ProcessStats } :=
  (claim10_sendFile_ignores_status
      { body := some (Json.obj [("status", Json.str "exists")]) } {}).1
    rfl rfl rfl (Or.inl rfl) rfl
    (Json.obj [("status", Json.str "exists")]) [("status", "exists")]
    rfl (by decide)

/-! ## Claim C1 -/

/-- Claim C1: for every upload request a worker processes, (i) at the moment
of any rename event the index already holds a row with the request's full
hash — the record was added and flushed before the file is published; (ii) if
a flush fails, the temp file is unlinked, there is no rename, and the
response is 500; (iii) a run that publishes committed a flush and saw no
flush failure. -/
theorem claim1_index_then_publish (h : List Byte → String) (bs : Nat)
    (root : String) (st : ServerState) (m : Media) (content : List Byte)
    (o : UploadOracle) (evs : List Event)
    (hres : processUploadRequest h bs root st m content o = some evs) :
    ∃ newFilename,
      getNewFilename h st.files root m = some newFilename
      ∧ insertedBeforeEveryRename st m.checksum evs = true
      ∧ (Event.bufferFlushFail ∈ evs →
          Event.removeFile (newFilename ++ ".download") ∈ evs
          ∧ hasRenameEvent evs = false
          ∧ (finalResponse evs).map Prod.fst = some 500)
      ∧ (hasRenameEvent evs = true →
          Event.bufferFlushOk ∈ evs ∧ Event.bufferFlushFail ∉ evs) := by
  unfold processUploadRequest at hres
  rcases hg : getNewFilename h st.files root m with _ | nf
  · rw [hg] at hres
    exact absurd hres (by simp)
  · rw [hg] at hres
    simp only [Option.some.injEq] at hres
    subst hres
    refine ⟨nf, rfl, ?_⟩
    have hins : dbChecksumExists
        (insertOrIgnoreAll st.db
          (st.buffer ++ [{ m with checksum100k := h (content.take 102400) }]))
        m.checksum = true := by
      have hlast := dbChecksumExists_insertOrIgnoreAll_last st.db st.buffer
        { m with checksum100k := h (content.take 102400) }
      simpa using hlast
    by_cases ho1 : o.openErr
    · simp [ho1, insertedBeforeEveryRename, hasRenameEvent, finalResponse]
    · by_cases ho2 : o.createErr
      · simp [ho1, ho2, insertedBeforeEveryRename, hasRenameEvent, finalResponse]
      · by_cases ho3 : o.writeErr
        · simp [ho1, ho2, ho3, insertedBeforeEveryRename, hasRenameEvent,
            finalResponse]
        · by_cases ho4 : o.closeErr
          · simp [ho1, ho2, ho3, ho4, insertedBeforeEveryRename, hasRenameEvent,
              finalResponse]
          · by_cases hm : (h content != m.checksum) = true
            · simp [ho1, ho2, ho3, ho4, hm, insertedBeforeEveryRename,
                hasRenameEvent, finalResponse]
            · by_cases hd : dbChecksumExists st.db (h content) = true
              · simp [ho1, ho2, ho3, ho4, hm, hd, insertedBeforeEveryRename,
                  hasRenameEvent, finalResponse]
              · by_cases hfull : bs ≤ st.buffer.length + 1
                · rcases hfa : o.flushInAddErr with _ | e
                  · by_cases hr : o.renameErr
                    · simp [ho1, ho2, ho3, ho4, hm, hd, hfull, hfa, hr,
                        renameStep, insertedBeforeEveryRename, hasRenameEvent,
                        finalResponse, applyEvent]
                    · simp [ho1, ho2, ho3, ho4, hm, hd, hfull, hfa, hr,
                        renameStep, insertedBeforeEveryRename, hasRenameEvent,
                        finalResponse, applyEvent, hins]
                  · simp [ho1, ho2, ho3, ho4, hm, hd, hfull, hfa,
                      insertedBeforeEveryRename, hasRenameEvent, finalResponse,
                      applyEvent]
                · rcases hff : o.flushForcedErr with _ | e
                  · by_cases hr : o.renameErr
                    · simp [ho1, ho2, ho3, ho4, hm, hd, hfull, hff, hr,
                        renameStep, insertedBeforeEveryRename, hasRenameEvent,
                        finalResponse, applyEvent]
                    · simp [ho1, ho2, ho3, ho4, hm, hd, hfull, hff, hr,
                        renameStep, insertedBeforeEveryRename, hasRenameEvent,
                        finalResponse, applyEvent, hins]
                  · simp [ho1, ho2, ho3, ho4, hm, hd, hfull, hff,
                      insertedBeforeEveryRename, hasRenameEvent, finalResponse,
                      applyEvent]

/-- Witness for claim1 on the concrete seed upload's happy trace. -/
theorem claim1_witness :
    ∃ newFilename,
      getNewFilename hdemo freshState.files "/r" mdemo = some newFilename
      ∧ insertedBeforeEveryRename freshState mdemo.checksum
          ((processUploadRequest hdemo 100 "/r" freshState mdemo []
            happyOracle).getD []) = true
      ∧ (Event.bufferFlushFail ∈
          ((processUploadRequest hdemo 100 "/r" freshState mdemo []
            happyOracle).getD []) →
          Event.removeFile (newFilename ++ ".download") ∈
            ((processUploadRequest hdemo 100 "/r" freshState mdemo []
              happyOracle).getD [])
          ∧ hasRenameEvent
              ((processUploadRequest hdemo 100 "/r" freshState mdemo []
                happyOracle).getD []) = false
          ∧ (finalResponse
              ((processUploadRequest hdemo 100 "/r" freshState mdemo []
                happyOracle).getD [])).map Prod.fst = some 500)
      ∧ (hasRenameEvent
            ((processUploadRequest hdemo 100 "/r" freshState mdemo []
              happyOracle).getD []) = true →
          Event.bufferFlushOk ∈
            ((processUploadRequest hdemo 100 "/r" freshState mdemo []
              happyOracle).getD [])
          ∧ Event.bufferFlushFail ∉
            ((processUploadRequest hdemo 100 "/r" freshState mdemo []
              happyOracle).getD [])) :=
  claim1_index_then_publish hdemo 100 "/r" freshState mdemo [] happyOracle
    ((processUploadRequest hdemo 100 "/r" freshState mdemo []
      happyOracle).getD []) (by decide)

/-! ## Claim C2 -/

theorem handleUpload_fresh (h : List Byte → String) (bs : Nat) (root : String)
    (m : Media) (content : List Byte) (hbs : 2 ≤ bs)
    (hwf : m.checksum = h content) :
    handleUpload h bs root freshState m content happyOracle =
      ((200, successBody), stateAfterFirst h root m content) := by
  have hg : getNewFilename h freshState.files root m =
      some (gnfCandidate root m 0) := by
    unfold getNewFilename getNewFilenameAux
    simp only [gnfCandidate_hasRootAsHead, Bool.true_eq_false, if_false]
    simp [fsLookup, freshState]
  have hbeq : (h content != m.checksum) = false := by
    simp [hwf]
  have hfull : ¬ (bs ≤ (freshState.buffer).length + 1) := by
    simp only [freshState]
    simp
    omega
  unfold handleUpload processUploadRequest
  rw [hg]
  simp [freshState, dbChecksumExists, happyOracle, hbeq, hfull, hwf,
    renameStep, finalResponse, applyEvents, applyEvent, insertOrIgnoreAll,
    stateAfterFirst, m2Of]

theorem handleUpload_duplicate (h : List Byte → String) (bs : Nat)
    (root : String) (st : ServerState) (m : Media) (content : List Byte)
    (o : UploadOracle) (hdup : dbChecksumExists st.db m.checksum = true) :
    handleUpload h bs root st m content o = ((409, existsBody), st) := by
  simp [handleUpload, hdup]

theorem stateAfterFirst_hasRecord (h : List Byte → String) (root : String)
    (m : Media) (content : List Byte) :
    dbChecksumExists (stateAfterFirst h root m content).db m.checksum = true := by
  simp [stateAfterFirst, m2Of, dbChecksumExists]

theorem runUploads_closed (h : List Byte → String) (bs : Nat) (root : String)
    (m : Media) (content : List Byte) (hbs : 2 ≤ bs)
    (hwf : m.checksum = h content) :
    ∀ k, runUploads h bs root m content (k + 1) =
      (stateAfterFirst h root m content,
       (200, successBody) :: List.replicate k (409, existsBody)) := by
  intro k
  induction k with
  | zero =>
    simp only [runUploads]
    rw [show (⟨[], [], []⟩ : ServerState) = freshState from rfl]
    simp only [handleUpload_fresh h bs root m content hbs hwf]
    simp
  | succ k ih =>
    rw [runUploads, ih]
    simp only [handleUpload_duplicate h bs root
      (stateAfterFirst h root m content) m content happyOracle
      (stateAfterFirst_hasRecord h root m content)]
    simp [List.replicate_succ']

/-- Claim C2: submitting the same well-formed request (declared full hash
equal to the content's digest) K times sequentially to a fresh server yields
200 with the success body on the first request and 409 with the exists body
on every later one, and leaves exactly one file on disk and exactly one media
row. -/
theorem claim2_duplicate_idempotence (h : List Byte → String) (bs : Nat)
    (root : String) (m : Media) (content : List Byte) (K : Nat)
    (hbs : 2 ≤ bs) (hwf : m.checksum = h content) (hK : 1 ≤ K) :
    (runUploads h bs root m content K).2 =
      (200, successBody) :: List.replicate (K - 1) (409, existsBody)
    ∧ (runUploads h bs root m content K).1.files.length = 1
    ∧ (runUploads h bs root m content K).1.db.length = 1 := by
  obtain ⟨k, rfl⟩ : ∃ k, K = k + 1 := ⟨K - 1, by omega⟩
  rw [runUploads_closed h bs root m content hbs hwf k]
  refine ⟨by simp, ?_, ?_⟩ <;> simp [stateAfterFirst]

/-- Witness for claim2 at the concrete seed upload, three submissions. -/
theorem claim2_witness :
    (runUploads hdemo 100 "/r" mdemo [] 3).2 =
      (200, successBody) :: List.replicate 2 (409, existsBody)
    ∧ (runUploads hdemo 100 "/r" mdemo [] 3).1.files.length = 1
    ∧ (runUploads hdemo 100 "/r" mdemo [] 3).1.db.length = 1 :=
  claim2_duplicate_idempotence hdemo 100 "/r" mdemo [] 3
    (by omega) (by decide) (by omega)

end Gosort
